import Mathlib

/-!
Shallow embedding of the survey-data pipeline
(`src/preprocessing.py`, `src/standardization.py`, `src/statistics.py`).

A pandas `DataFrame` is modelled as a `Frame`: an ordered list of column
names together with an ordered list of rows, where a row is an association
list from column name to cell value.  Numeric cells (integer codes and
floating-point values alike) are modelled as exact rationals; a missing
value (pandas `NA` / `NaN`) is `Val.null`.  The stage functions below are
translated step by step from the source scripts.
-/

namespace SurveyPipeline

/-- A cell value of the tabular record set: a numeric scalar, a string, or
a missing value (pandas `NA`/`NaN`). -/
inductive Val where
  | num (q : ℚ)
  | str (s : String)
  | null
deriving DecidableEq, Repr

/-- A row: an association list from column name to cell value, mirroring
pandas' access-by-name semantics. -/
abbrev Row := List (String × Val)

/-- Cell lookup by column name; a name with no binding in the row reads as
missing (`Val.null`). -/
def rowCell : Row → String → Val
  | [], _ => Val.null
  | (k, v) :: rest, c => if k = c then v else rowCell rest c

/-- Column assignment restricted to one row (`df[c] = v`): replace the
first binding of the name, or append a new binding. -/
def rowSet : Row → String → Val → Row
  | [], c, v => [(c, v)]
  | (k, w) :: rest, c, v =>
      if k = c then (c, v) :: rest else (k, w) :: rowSet rest c v

/-- A tabular record set (pandas `DataFrame`): an ordered list of column
names and an ordered list of rows. -/
structure Frame where
  cols : List String
  rows : List Row
deriving DecidableEq, Repr

theorem rowCell_rowSet_same (r : Row) (c : String) (v : Val) :
    rowCell (rowSet r c v) c = v := by
  induction r with
  | nil => simp [rowSet, rowCell]
  | cons p rest ih =>
    obtain ⟨k, w⟩ := p
    by_cases h : k = c
    · simp [rowSet, h, rowCell]
    · simp [rowSet, h, rowCell, ih]

theorem rowCell_rowSet_other (r : Row) (c c' : String) (v : Val) (h : c' ≠ c) :
    rowCell (rowSet r c v) c' = rowCell r c' := by
  induction r with
  | nil =>
    have hcc : ¬ (c = c') := fun hh => h hh.symm
    simp [rowSet, rowCell, hcc]
  | cons p rest ih =>
    obtain ⟨k, w⟩ := p
    by_cases hkc : k = c
    · subst hkc
      have hkc' : ¬ (k = c') := fun hh => h hh.symm
      simp [rowSet, rowCell, hkc']
    · simp [rowSet, hkc, rowCell, ih]

/-- `(l.map g).getD i d' = g (l.getD i d)` for an in-bounds index. -/
theorem getD_map_of_lt {α β : Type} (g : α → β) (l : List α) (i : ℕ)
    (h : i < l.length) (d : α) (d' : β) :
    (l.map g).getD i d' = g (l.getD i d) := by
  induction l generalizing i with
  | nil => simp at h
  | cons a l ih =>
    cases i with
    | zero => simp
    | succ n =>
      simp only [List.map_cons, List.getD_cons_succ]
      exact ih n (by simpa using h)

/-- Boolean row filter (`df[mask]`, preprocessing Steps 3/8/9): keep the
rows whose mask is true, preserving row order and the column list. -/
def filterRows (f : Frame) (p : Row → Bool) : Frame :=
  { cols := f.cols, rows := f.rows.filter p }

/-- Equality mask `df[col] == v` (Steps 3 and 8): a missing value compares
unequal, so such a row is dropped. -/
def eqPred (c : String) (v : ℚ) : Row → Bool :=
  fun r => rowCell r c == Val.num v

/-- Membership mask `df[col].isin(vs)` (Steps 8 and 9). -/
def isinPred (c : String) (vs : List ℚ) : Row → Bool :=
  fun r => vs.any (fun v => rowCell r c == Val.num v)

/-- Step 8: the two successive inclusion filters applied to the Q2 subset:
`P206 == 3`, then `P202.isin([3, 4, 5])`. -/
def step8Filter (f : Frame) : Frame :=
  filterRows (filterRows f (eqPred "P206" 3)) (isinPred "P202" [3, 4, 5])

/-- Column drop with `errors='ignore'` (Steps 6/7): remove the listed
columns that are present; listed names that are absent are ignored
silently and the operation never fails. -/
def dropCols (f : Frame) (cs : List String) : Frame :=
  { cols := f.cols.filter (fun c => !(cs.contains c)),
    rows := f.rows.map (fun r => r.filter (fun p => !(cs.contains p.1))) }

/-- Column projection `df[cs]`, total version: rebuild each row restricted
to the selected names, in the selected order. -/
def projectCols (f : Frame) (cs : List String) : Frame :=
  { cols := cs, rows := f.rows.map (fun r => cs.map (fun c => (c, rowCell r c))) }

/-- Column selection `df[cs]` (Steps 14/15): raises `KeyError` (modelled
as `none`) when a requested column is absent, otherwise projects. -/
def selectCols (f : Frame) (cs : List String) : Option Frame :=
  if cs.all (fun c => f.cols.contains c) then some (projectCols f cs) else none

/-- Step 10: the fixed coding scheme mapping a post code to its
(caption length, hashtag count) pair; a non-key code has no image. -/
def coding_scheme (q : ℚ) : Option (ℤ × ℤ) :=
  if q = 1 then some (5, 5) else if q = 2 then some (70, 5)
  else if q = 3 then some (140, 5) else if q = 4 then some (200, 5)
  else if q = 5 then some (5, 11) else if q = 6 then some (70, 11)
  else if q = 7 then some (140, 11) else if q = 8 then some (200, 11)
  else if q = 9 then some (5, 15) else if q = 10 then some (70, 15)
  else if q = 11 then some (140, 15) else if q = 12 then some (200, 15)
  else none

/-- Step 11, per-row lookup: the mask `df[post_col].isin(keys)` is computed
after `Caption_Length` and `Hashtags` have been initialised to `NA`, so the
post code is read from the row with those two columns already nulled. -/
def postLookup (r : Row) (postCol : String) : Option (ℤ × ℤ) :=
  match rowCell (rowSet (rowSet r "Caption_Length" Val.null) "Hashtags" Val.null) postCol with
  | Val.num q => coding_scheme q
  | _ => none

/-- Step 11 (`add_post_info`): append nullable `Caption_Length` and
`Hashtags` columns; a row whose post code is a key of the coding scheme
gets the mapped pair, every other row gets `NA` in both columns; no row is
dropped. -/
def add_post_info (f : Frame) (postCol : String) : Frame :=
  { cols :=
      let c1 := if f.cols.contains "Caption_Length" then f.cols
                else f.cols ++ ["Caption_Length"]
      if c1.contains "Hashtags" then c1 else c1 ++ ["Hashtags"],
    rows := f.rows.map (fun r =>
      let r0 := rowSet (rowSet r "Caption_Length" Val.null) "Hashtags" Val.null
      match postLookup r postCol with
      | some (l, h) =>
          rowSet (rowSet r0 "Caption_Length" (Val.num l)) "Hashtags" (Val.num h)
      | none => r0) }

/-- Step 11: the `Valid mappings` count printed as a log message. -/
def valid_mappings (f : Frame) (postCol : String) : ℕ :=
  f.rows.countP (fun r => (postLookup r postCol).isSome)

/-- Rounding to two decimal places (pandas `.round(2)`), on exact
rationals. -/
def round2 (q : ℚ) : ℚ := (round (q * 100) : ℤ) / 100

/-- Rounding to one decimal place (Python `round(x, 1)`, statistics
Step 3), on exact rationals. -/
def round1 (q : ℚ) : ℚ := (round (q * 10) : ℤ) / 10

/-- Numeric view of a cell: pandas arithmetic sees a number or `NaN`. -/
def asNum : Val → Option ℚ
  | Val.num q => some q
  | _ => none

/-- Steps 16/17: the weighted engagement score of one row; a missing value
in any of the three inputs poisons the sum and survives the rounding. -/
def scoreVal (r : Row) : Val :=
  match asNum (rowCell r "Like Possibility"), asNum (rowCell r "Comment Possibility"),
        asNum (rowCell r "Share Possibility") with
  | some l, some c, some s =>
      Val.num (round2 (l * (847 / 1000) + c * (941 / 1000) + s * (920 / 1000)))
  | _, _, _ => Val.null

/-- Steps 16/17: append the `Engagement Intention Score` column. -/
def addEngagementScore (f : Frame) : Frame :=
  { cols := if f.cols.contains "Engagement Intention Score" then f.cols
            else f.cols ++ ["Engagement Intention Score"],
    rows := f.rows.map (fun r => rowSet r "Engagement Intention Score" (scoreVal r)) }

/-- Step 18, RowID regeneration: assign row `i` the string `Row_i`. -/
def setRowIDs (f : Frame) : Frame :=
  { cols := if f.cols.contains "RowID" then f.cols else f.cols ++ ["RowID"],
    rows := (List.range f.rows.length).map (fun i =>
      rowSet (f.rows.getD i []) "RowID" (Val.str ("Row_" ++ toString i))) }

/-- Step 18: `['RowID'] + [col for col in columns if col != 'RowID']`. -/
def mergeCols (cols : List String) : List String :=
  "RowID" :: cols.filter (fun c => !(c == "RowID"))

/-- Step 18: the union/merge stage.  The two column lists must be
identical (names and order); on mismatch the stage raises (modelled as
`none`, nothing written).  On success the rows are concatenated in input
order, `RowID` is regenerated sequentially over the whole result, and the
columns are reordered with `RowID` first. -/
def merge (f1 f2 : Frame) : Option Frame :=
  if f1.cols = f2.cols then
    some (projectCols (setRowIDs { cols := f1.cols, rows := f1.rows ++ f2.rows })
      (mergeCols (setRowIDs { cols := f1.cols, rows := f1.rows ++ f2.rows }).cols))
  else none

/-- statistics Step 2: count of rows whose `FINISHED` flag equals 1. -/
def finished_cases (f : Frame) : ℕ :=
  f.rows.countP (fun r => rowCell r "FINISHED" == Val.num 1)

/-- pandas element-wise `!=`: a missing value on either side compares
unequal (in particular `NaN != NaN` is true). -/
def pandasNe (a b : Val) : Bool :=
  match a, b with
  | Val.null, _ => true
  | _, Val.null => true
  | x, y => x != y

/-- statistics Step 3: `(df['P201'] != df['P301']).sum()`, counted over
every row of the raw table. -/
def different_codes (f : Frame) : ℕ :=
  f.rows.countP (fun r => pandasNe (rowCell r "P201") (rowCell r "P301"))

/-- statistics Step 3: the difference count as a percentage of the
finished-row count, rounded to one decimal; 0 when nothing finished. -/
def different_codes_pct (f : Frame) : ℚ :=
  if 0 < finished_cases f then
    round1 ((different_codes f : ℚ) / (finished_cases f : ℚ) * 100)
  else 0

/-- Arithmetic mean of a list of rationals. -/
def mean (xs : List ℚ) : ℚ := xs.sum / xs.length

/-- Population (`ddof = 0`) variance — the convention used by
`sklearn.preprocessing.StandardScaler`. -/
def popVar (xs : List ℚ) : ℚ :=
  (xs.map (fun x => (x - mean xs) ^ 2)).sum / xs.length

/-- Sample (`ddof = 1`, unbiased-estimator) variance. -/
def sampleVar (xs : List ℚ) : ℚ :=
  (xs.map (fun x => (x - mean xs) ^ 2)).sum / ((xs.length : ℚ) - 1)

/-- standardization Step 4: `StandardScaler.fit_transform` on one column
of non-null values.  scikit-learn subtracts the mean and divides by the
`ddof = 0` standard deviation `sqrt (popVar xs)`; since that square root
is irrational in general, the divisor is abstracted as a parameter `σ`
that the theorems constrain by `σ ^ 2 = popVar xs`. -/
def standardizeWith (σ : ℚ) (xs : List ℚ) : List ℚ :=
  xs.map (fun x => (x - mean xs) / σ)

/-- Insertion into a `≤`-sorted list of rationals. -/
def insertSorted (q : ℚ) : List ℚ → List ℚ
  | [] => [q]
  | x :: xs => if q ≤ x then q :: x :: xs else x :: insertSorted q xs

/-- Insertion sort on rationals. -/
def sortCats (l : List ℚ) : List ℚ := l.foldr insertSorted []

/-- standardization Step 5: the observed category values of one column, in
the deterministic order `pd.get_dummies` uses — the distinct non-null
values sorted ascending. -/
def sortedCats (col : List (Option ℚ)) : List ℚ :=
  sortCats ((col.filterMap id).dedup)

/-- standardization Step 5:
`pd.get_dummies(col, drop_first=True, dtype=int)` for a single column: one
0/1 indicator column per observed category except the first (reference)
one; a missing value yields 0 in every indicator. -/
def oneHot (col : List (Option ℚ)) : List (ℚ × List ℕ) :=
  match sortedCats col with
  | [] => []
  | _ :: rest =>
      rest.map (fun c => (c, col.map (fun v => if v = some c then 1 else 0)))

/-- Sum over all indicator columns of `oneHot col` of their row-`i`
entry. -/
def dummyRowSum (col : List (Option ℚ)) (i : ℕ) : ℕ :=
  ((oneHot col).map (fun p => p.2.getD i 0)).sum

/-! ### Helper lemmas -/

/-- Evaluate `round` on a rational from explicit floor bounds. -/
theorem round_eq_of (q : ℚ) (n : ℤ) (h1 : (n : ℚ) ≤ q + 1 / 2)
    (h2 : q + 1 / 2 < (n : ℚ) + 1) : round q = n := by
  rw [round_eq]
  exact Int.floor_eq_iff.mpr ⟨h1, by exact_mod_cast h2⟩

/-- The weighted sum for ratings (4, 3, 5) rounds to `10.81`. -/
theorem score_val_435 :
    round2 (4 * (847 / 1000) + 3 * (941 / 1000) + 5 * (920 / 1000)) = 1081 / 100 := by
  have hq : (4 * (847 / 1000) + 3 * (941 / 1000) + 5 * (920 / 1000) : ℚ) * 100
      = 10811 / 10 := by norm_num
  rw [round2, hq, round_eq_of (10811 / 10) 1081 (by norm_num) (by norm_num)]
  norm_num

theorem sum_map_div (xs : List ℚ) (g : ℚ → ℚ) (a : ℚ) :
    (xs.map (fun x => g x / a)).sum = (xs.map g).sum / a := by
  induction xs with
  | nil => simp
  | cons x xs ih => simp [ih, add_div]

theorem sum_map_sub (xs : List ℚ) (a : ℚ) :
    (xs.map (fun x => x - a)).sum = xs.sum - xs.length * a := by
  induction xs with
  | nil => simp
  | cons x xs ih =>
    simp only [List.map_cons, List.sum_cons, ih, List.length_cons]
    push_cast
    ring

theorem mem_insertSorted {a q : ℚ} {l : List ℚ} :
    a ∈ insertSorted q l ↔ a = q ∨ a ∈ l := by
  induction l with
  | nil => simp [insertSorted]
  | cons x xs ih =>
    by_cases h : q ≤ x
    · simp [insertSorted, h]
    · simp [insertSorted, h, ih]
      tauto

theorem nodup_insertSorted {q : ℚ} {l : List ℚ} (hq : q ∉ l) (hl : l.Nodup) :
    (insertSorted q l).Nodup := by
  induction l with
  | nil => simp [insertSorted]
  | cons x xs ih =>
    obtain ⟨hx, hxs⟩ := List.nodup_cons.mp hl
    have hq' : q ∉ xs := fun hm => hq (List.mem_cons_of_mem _ hm)
    have hqx : q ≠ x := fun he => hq (he ▸ List.mem_cons_self x xs)
    by_cases h : q ≤ x
    · rw [insertSorted, if_pos h]
      exact List.nodup_cons.mpr ⟨hq, hl⟩
    · rw [insertSorted, if_neg h]
      refine List.nodup_cons.mpr ⟨?_, ih hq' hxs⟩
      intro hm
      rcases mem_insertSorted.mp hm with he | hm2
      · exact hqx he.symm
      · exact hx hm2

theorem mem_sortCats {a : ℚ} {l : List ℚ} : a ∈ sortCats l ↔ a ∈ l := by
  induction l with
  | nil => simp [sortCats]
  | cons x xs ih =>
    show a ∈ insertSorted x (sortCats xs) ↔ _
    rw [mem_insertSorted, ih]
    simp

theorem nodup_sortCats {l : List ℚ} (h : l.Nodup) : (sortCats l).Nodup := by
  induction l with
  | nil => simp [sortCats]
  | cons x xs ih =>
    obtain ⟨hx, hxs⟩ := List.nodup_cons.mp h
    show (insertSorted x (sortCats xs)).Nodup
    exact nodup_insertSorted (fun hm => hx (mem_sortCats.mp hm)) (ih hxs)

theorem mem_sortedCats (col : List (Option ℚ)) (q : ℚ) :
    q ∈ sortedCats col ↔ some q ∈ col := by
  rw [sortedCats, mem_sortCats, List.mem_dedup]
  simp [List.mem_filterMap]

theorem nodup_sortedCats (col : List (Option ℚ)) : (sortedCats col).Nodup :=
  nodup_sortCats (List.nodup_dedup _)

theorem sum_indicator (v : Option ℚ) (l : List ℚ) (hl : l.Nodup) :
    (l.map (fun c => if v = some c then (1 : ℕ) else 0)).sum
      = if ∃ c ∈ l, v = some c then 1 else 0 := by
  induction l with
  | nil => simp
  | cons x xs ih =>
    obtain ⟨hx, hxs⟩ := List.nodup_cons.mp hl
    by_cases hv : v = some x
    · have hnone : ¬ ∃ c ∈ xs, v = some c := by
        rintro ⟨c, hc, hvc⟩
        rw [hv] at hvc
        exact hx ((Option.some.injEq x c).mp hvc ▸ hc)
      rw [List.map_cons, List.sum_cons, if_pos hv, ih hxs, if_neg hnone,
        if_pos (show ∃ c ∈ x :: xs, v = some c from ⟨x, List.mem_cons_self x xs, hv⟩)]
    · have hiff : (∃ c ∈ x :: xs, v = some c) ↔ ∃ c ∈ xs, v = some c := by
        constructor
        · rintro ⟨c, hc, hvc⟩
          rcases List.mem_cons.mp hc with rfl | hc2
          · exact absurd hvc hv
          · exact ⟨c, hc2, hvc⟩
        · rintro ⟨c, hc, hvc⟩
          exact ⟨c, List.mem_cons_of_mem x hc, hvc⟩
      rw [List.map_cons, List.sum_cons, if_neg hv, ih hxs, zero_add]
      by_cases he : ∃ c ∈ xs, v = some c
      · rw [if_pos he, if_pos (hiff.mpr he)]
      · rw [if_neg he, if_neg (fun hh => he (hiff.mp hh))]

/-- Cell lookup in a row rebuilt by projection agrees with the source row
on every selected column. -/
theorem rowCell_project (cs : List String) (r : Row) (c : String) (h : c ∈ cs) :
    rowCell (cs.map (fun c' => (c', rowCell r c'))) c = rowCell r c := by
  induction cs with
  | nil => cases h
  | cons d cs ih =>
    by_cases hdc : d = c
    · subst hdc
      simp [rowCell]
    · have hc : c ∈ cs := by
        rcases List.mem_cons.mp h with h1 | h1
        · exact absurd h1.symm hdc
        · exact h1
      simp [rowCell, hdc, ih hc]

/-! ### Claim C1 -/

/-- A one-row frame with ratings Like = 4, Comment = 3, Share = 5. -/
def scoreFrame435 : Frame :=
  { cols := ["Like Possibility", "Comment Possibility", "Share Possibility"],
    rows := [[("Like Possibility", Val.num 4), ("Comment Possibility", Val.num 3),
              ("Share Possibility", Val.num 5)]] }

/-- Evaluation of the composite-score cell on `scoreFrame435`. -/
theorem scoreFrame435_cell :
    rowCell ((addEngagementScore scoreFrame435).rows.getD 0 []) "Engagement Intention Score"
      = Val.num (1081 / 100) := by
  simp only [addEngagementScore, scoreFrame435, List.map_cons, List.map_nil,
    List.getD_cons_zero]
  rw [rowCell_rowSet_same]
  simp [scoreVal, rowCell, asNum, score_val_435]

/-- C1 (counterexample): for Like = 4, Comment = 3, Share = 5 the
composite-score step does NOT produce 10.84 — the weighted sum is
4·0.847 + 3·0.941 + 5·0.920 = 10.811, which rounds to 10.81, so the
claim's asserted value `round(..., 2) = 10.84` is false. -/
theorem engagement_score_1084_false :
    rowCell ((addEngagementScore scoreFrame435).rows.getD 0 []) "Engagement Intention Score"
      ≠ Val.num (1084 / 100) ∧
    round2 (4 * (847 / 1000) + 3 * (941 / 1000) + 5 * (920 / 1000)) ≠ 1084 / 100 := by
  rw [scoreFrame435_cell, score_val_435]
  refine ⟨fun h => ?_, by norm_num⟩
  have := (Val.num.injEq _ _).mp h
  norm_num at this

/-- C1 (amended): for a row with Like Possibility = 4, Comment
Possibility = 3, Share Possibility = 5, the Engagement Intention Score
computed by the composite-score step (weights 0.847, 0.941, 0.920,
rounded to 2 decimal places) equals
`round(4*0.847 + 3*0.941 + 5*0.920, 2) = 10.81`. -/
theorem engagement_score_435_value :
    rowCell ((addEngagementScore scoreFrame435).rows.getD 0 []) "Engagement Intention Score"
      = Val.num (round2 (4 * (847 / 1000) + 3 * (941 / 1000) + 5 * (920 / 1000))) ∧
    round2 (4 * (847 / 1000) + 3 * (941 / 1000) + 5 * (920 / 1000)) = 1081 / 100 :=
  ⟨by rw [scoreFrame435_cell, score_val_435], score_val_435⟩

/-! ### Claim C6 -/

/-- C6: filtering keeps exactly the rows satisfying the predicate — at
most `|R|` rows survive, every surviving row satisfies `p`, every row of
`R` satisfying `p` survives, row order (sublist) and the column list are
preserved; in particular every row surviving the Step 8 filters satisfies
both the equality predicate `P206 == 3` and the membership predicate
`P202 ∈ {3,4,5}`. -/
theorem filter_contract (f : Frame) (p : Row → Bool) :
    (filterRows f p).rows.length ≤ f.rows.length ∧
    (filterRows f p).cols = f.cols ∧
    (∀ r ∈ (filterRows f p).rows, p r = true) ∧
    (∀ r ∈ f.rows, p r = true → r ∈ (filterRows f p).rows) ∧
    (filterRows f p).rows.Sublist f.rows ∧
    (∀ r ∈ (step8Filter f).rows,
      eqPred "P206" 3 r = true ∧ isinPred "P202" [3, 4, 5] r = true) :=
  ⟨List.length_filter_le p f.rows, rfl,
   fun _ hr => List.of_mem_filter hr,
   fun _ hr hp => List.mem_filter_of_mem hr hp,
   List.filter_sublist f.rows,
   fun _ hr => ⟨List.of_mem_filter (List.mem_of_mem_filter hr), List.of_mem_filter hr⟩⟩

/-- A two-row frame for exercising the inclusion filter. -/
def filterFrameW : Frame :=
  { cols := ["P101"], rows := [[("P101", Val.num 1)], [("P101", Val.num 2)]] }

/-- C6 (witness): the filter contract evaluated on a concrete two-row
frame with the platform predicate `P101 == 1`. -/
theorem filter_contract_witness :
    (filterRows filterFrameW (eqPred "P101" 1)).rows.length ≤ filterFrameW.rows.length ∧
    (filterRows filterFrameW (eqPred "P101" 1)).cols = filterFrameW.cols ∧
    eqPred "P101" 1 [("P101", Val.num 1)] = true ∧
    [("P101", Val.num 1)] ∈ (filterRows filterFrameW (eqPred "P101" 1)).rows := by
  have h := filter_contract filterFrameW (eqPred "P101" 1)
  exact ⟨h.1, h.2.1, by decide, h.2.2.2.1 [("P101", Val.num 1)] (by decide) (by decide)⟩

/-! ### Claim C8 -/

/-- C8: dropping with a drop-list never fails — every listed name that is
present is removed, absent listed names are ignored, the other columns
and all rows survive — whereas selecting a column that does not exist
fails (`SchemaError`, modelled as `none`) instead of returning a frame;
selection succeeds when every requested column exists. -/
theorem drop_select_contract (f : Frame) (cs : List String) (c : String) :
    (dropCols f cs).rows.length = f.rows.length ∧
    (c ∈ cs → c ∉ (dropCols f cs).cols) ∧
    (c ∈ f.cols → c ∉ cs → c ∈ (dropCols f cs).cols) ∧
    (c ∈ cs → c ∉ f.cols → selectCols f cs = none) ∧
    (cs.all (fun x => f.cols.contains x) = true →
      selectCols f cs = some (projectCols f cs)) := by
  refine ⟨by simp [dropCols], ?_, ?_, ?_, ?_⟩
  · intro hc hmem
    have := (List.mem_filter.mp hmem).2
    simp at this
    exact this hc
  · intro hf hcs
    exact List.mem_filter.mpr ⟨hf, by simpa using hcs⟩
  · intro hc hf
    rw [selectCols, if_neg]
    intro hall
    exact hf (by simpa using List.all_eq_true.mp hall c hc)
  · intro hall
    rw [selectCols, if_pos hall]

/-- A one-row frame for exercising drop and select. -/
def dropFrameW : Frame :=
  { cols := ["A", "B"], rows := [[("A", Val.num 1), ("B", Val.num 2)]] }

/-- C8 (witness): on a concrete frame, dropping `["B", "C"]` succeeds and
ignores the absent `C` while removing `B` and keeping `A`; selecting
`["B", "C"]` fails because `C` is absent. -/
theorem drop_select_contract_witness :
    (dropCols dropFrameW ["B", "C"]).rows.length = dropFrameW.rows.length ∧
    "C" ∉ (dropCols dropFrameW ["B", "C"]).cols ∧
    "B" ∉ (dropCols dropFrameW ["B", "C"]).cols ∧
    "A" ∈ (dropCols dropFrameW ["B", "C"]).cols ∧
    selectCols dropFrameW ["B", "C"] = none := by
  have hC := drop_select_contract dropFrameW ["B", "C"] "C"
  have hB := drop_select_contract dropFrameW ["B", "C"] "B"
  have hA := drop_select_contract dropFrameW ["B", "C"] "A"
  exact ⟨hC.1, hC.2.1 (by decide), hB.2.1 (by decide),
    hA.2.2.1 (by decide) (by decide), hC.2.2.2.1 (by decide) (by decide)⟩

/-! ### Claims C2 and C10 -/

/-- Unfolding of the per-row action of `add_post_info` at an in-bounds
index. -/
theorem add_post_info_row (f : Frame) (postCol : String) (i : ℕ)
    (hi : i < f.rows.length) :
    (add_post_info f postCol).rows.getD i []
      = (fun r =>
          let r0 := rowSet (rowSet r "Caption_Length" Val.null) "Hashtags" Val.null
          match postLookup r postCol with
          | some (l, h) =>
              rowSet (rowSet r0 "Caption_Length" (Val.num l)) "Hashtags" (Val.num h)
          | none => r0) (f.rows.getD i []) := by
  rw [add_post_info]
  exact getD_map_of_lt _ f.rows i hi [] []

/-- A non-key post code is outside 1–12: the coding scheme of any value
not in 1–12 is `none`. -/
theorem coding_scheme_dom (q : ℚ) (hq : coding_scheme q ≠ none) :
    q = 1 ∨ q = 2 ∨ q = 3 ∨ q = 4 ∨ q = 5 ∨ q = 6 ∨
    q = 7 ∨ q = 8 ∨ q = 9 ∨ q = 10 ∨ q = 11 ∨ q = 12 := by
  by_contra hdisj
  push_neg at hdisj
  obtain ⟨n1, n2, n3, n4, n5, n6, n7, n8, n9, n10, n11, n12⟩ := hdisj
  rw [coding_scheme, if_neg n1, if_neg n2, if_neg n3, if_neg n4, if_neg n5,
    if_neg n6, if_neg n7, if_neg n8, if_neg n9, if_neg n10, if_neg n11,
    if_neg n12] at hq
  exact hq rfl

/-- C2: for every input frame and every row, `add_post_info` sets
`Caption_Length` and `Hashtags` to exactly the pair of the fixed 12-entry
lookup table when the row's post code is a key (in particular code 3 maps
to (140, 5)), and sets both derived columns to null when it is not; no
row is dropped (the function is total and length-preserving, hence also
deterministic); every key of the table lies in 1–12. -/
theorem add_post_info_mapping (f : Frame) (postCol : String)
    (h1 : postCol ≠ "Caption_Length") (h2 : postCol ≠ "Hashtags") :
    (add_post_info f postCol).rows.length = f.rows.length ∧
    coding_scheme 3 = some (140, 5) ∧
    (∀ q : ℚ, coding_scheme q ≠ none →
      q = 1 ∨ q = 2 ∨ q = 3 ∨ q = 4 ∨ q = 5 ∨ q = 6 ∨
      q = 7 ∨ q = 8 ∨ q = 9 ∨ q = 10 ∨ q = 11 ∨ q = 12) ∧
    ∀ i, i < f.rows.length →
      postLookup (f.rows.getD i []) postCol
        = (asNum (rowCell (f.rows.getD i []) postCol)).bind coding_scheme ∧
      (∀ l h, postLookup (f.rows.getD i []) postCol = some (l, h) →
        rowCell ((add_post_info f postCol).rows.getD i []) "Caption_Length"
            = Val.num l ∧
        rowCell ((add_post_info f postCol).rows.getD i []) "Hashtags" = Val.num h) ∧
      (postLookup (f.rows.getD i []) postCol = none →
        rowCell ((add_post_info f postCol).rows.getD i []) "Caption_Length"
            = Val.null ∧
        rowCell ((add_post_info f postCol).rows.getD i []) "Hashtags" = Val.null) := by
  have hch : ("Caption_Length" : String) ≠ "Hashtags" := by decide
  refine ⟨by simp [add_post_info], by decide, fun q hq => coding_scheme_dom q hq, ?_⟩
  · intro i hi
    have hrow := add_post_info_row f postCol i hi
    refine ⟨?_, ?_, ?_⟩
    · rw [postLookup, rowCell_rowSet_other _ _ _ _ h2, rowCell_rowSet_other _ _ _ _ h1]
      cases rowCell (f.rows.getD i []) postCol <;> simp [asNum]
    · intro l h hlk
      rw [hrow]
      simp only [hlk]
      constructor
      · rw [rowCell_rowSet_other _ _ _ _ hch, rowCell_rowSet_same]
      · rw [rowCell_rowSet_same]
    · intro hlk
      rw [hrow]
      simp only [hlk]
      constructor
      · rw [rowCell_rowSet_other _ _ _ _ hch, rowCell_rowSet_same]
      · rw [rowCell_rowSet_same]

/-- A two-row frame whose post codes are the key 3 and the non-key 99. -/
def postFrameW : Frame :=
  { cols := ["P201"], rows := [[("P201", Val.num 3)], [("P201", Val.num 99)]] }

/-- C2 (witness): on a concrete frame, the row with post code 3 receives
caption length 140 and hashtag count 5, and the row with the non-key
code 99 receives null in both derived columns; no row is dropped. -/
theorem add_post_info_mapping_witness :
    (add_post_info postFrameW "P201").rows.length = postFrameW.rows.length ∧
    rowCell ((add_post_info postFrameW "P201").rows.getD 0 []) "Caption_Length"
        = Val.num 140 ∧
    rowCell ((add_post_info postFrameW "P201").rows.getD 0 []) "Hashtags" = Val.num 5 ∧
    rowCell ((add_post_info postFrameW "P201").rows.getD 1 []) "Caption_Length"
        = Val.null ∧
    rowCell ((add_post_info postFrameW "P201").rows.getD 1 []) "Hashtags" = Val.null := by
  have h := add_post_info_mapping postFrameW "P201" (by decide) (by decide)
  obtain ⟨hlen, -, -, hall⟩ := h
  obtain ⟨-, hmap, -⟩ := hall 0 (by decide)
  obtain ⟨-, -, hnull⟩ := hall 1 (by decide)
  have h0 := hmap 140 5 (by decide)
  have h1 := hnull (by decide)
  exact ⟨hlen, h0.1, h0.2, h1.1, h1.2⟩

/-- C10: `add_post_info` returns a frame with the same number of rows (in
the same per-index order), leaves the value of every pre-existing column
unchanged on every row, appends exactly the two columns
`Caption_Length` and `Hashtags` at the end of the column list, every
non-null derived value is an integer, and the logged valid-mapping count
never exceeds the row count. -/
theorem add_post_info_frame_effects (f : Frame) (postCol : String)
    (hcap : "Caption_Length" ∉ f.cols) (hhash : "Hashtags" ∉ f.cols) :
    (add_post_info f postCol).cols = f.cols ++ ["Caption_Length", "Hashtags"] ∧
    (add_post_info f postCol).rows.length = f.rows.length ∧
    (∀ i, i < f.rows.length → ∀ c, c ∈ f.cols →
      rowCell ((add_post_info f postCol).rows.getD i []) c
        = rowCell (f.rows.getD i []) c) ∧
    (∀ i, i < f.rows.length → ∀ c, c = "Caption_Length" ∨ c = "Hashtags" →
      ∀ q, rowCell ((add_post_info f postCol).rows.getD i []) c = Val.num q →
        ∃ n : ℤ, q = (n : ℚ)) ∧
    valid_mappings f postCol ≤ f.rows.length := by
  refine ⟨?_, by simp [add_post_info], ?_, ?_, List.countP_le_length _⟩
  · rw [add_post_info]
    simp [hcap, hhash]
  · intro i hi c hc
    have hccap : c ≠ "Caption_Length" := fun he => hcap (he ▸ hc)
    have hchash : c ≠ "Hashtags" := fun he => hhash (he ▸ hc)
    have hrow := add_post_info_row f postCol i hi
    rw [hrow]
    cases hlk : postLookup (f.rows.getD i []) postCol with
    | some p =>
      obtain ⟨l, h⟩ := p
      simp only [hlk]
      rw [rowCell_rowSet_other _ _ _ _ hchash, rowCell_rowSet_other _ _ _ _ hccap,
        rowCell_rowSet_other _ _ _ _ hchash, rowCell_rowSet_other _ _ _ _ hccap]
    | none =>
      simp only [hlk]
      rw [rowCell_rowSet_other _ _ _ _ hchash, rowCell_rowSet_other _ _ _ _ hccap]
  · intro i hi c hc q hq
    have hrow := add_post_info_row f postCol i hi
    rw [hrow] at hq
    have hch : ("Caption_Length" : String) ≠ "Hashtags" := by decide
    cases hlk : postLookup (f.rows.getD i []) postCol with
    | some p =>
      obtain ⟨l, h⟩ := p
      simp only [hlk] at hq
      rcases hc with rfl | rfl
      · rw [rowCell_rowSet_other _ _ _ _ hch, rowCell_rowSet_same] at hq
        exact ⟨l, ((Val.num.injEq _ _).mp hq).symm⟩
      · rw [rowCell_rowSet_same] at hq
        exact ⟨h, ((Val.num.injEq _ _).mp hq).symm⟩
    | none =>
      simp only [hlk] at hq
      rcases hc with rfl | rfl
      · rw [rowCell_rowSet_other _ _ _ _ hch, rowCell_rowSet_same] at hq
        exact absurd hq (by simp)
      · rw [rowCell_rowSet_same] at hq
        exact absurd hq (by simp)

/-- C10 (witness): the frame-effect contract evaluated on the concrete
two-row frame: columns become `["P201", "Caption_Length", "Hashtags"]`,
both rows survive, the pre-existing `P201` values are untouched, and the
mapped caption length 140 is the integer 140. -/
theorem add_post_info_frame_effects_witness :
    (add_post_info postFrameW "P201").cols
        = postFrameW.cols ++ ["Caption_Length", "Hashtags"] ∧
    (add_post_info postFrameW "P201").rows.length = postFrameW.rows.length ∧
    rowCell ((add_post_info postFrameW "P201").rows.getD 0 []) "P201"
        = rowCell (postFrameW.rows.getD 0 []) "P201" ∧
    ∃ n : ℤ, (140 : ℚ) = (n : ℚ) := by
  have h := add_post_info_frame_effects postFrameW "P201" (by decide) (by decide)
  refine ⟨h.1, h.2.1, h.2.2.1 0 (by decide) "P201" (by decide), ?_⟩
  exact h.2.2.2.1 0 (by decide) "Caption_Length" (Or.inl rfl) 140 (by decide)

/-! ### Claim C5 -/

/-- C5: on any row whose three rating cells are each numeric or missing
(as produced by reading the CSV), the composite Engagement Intention
Score is null if and only if at least one of the three weighted inputs is
null; when all three are present the score is a (non-null) number, so a
missing input is never silently coerced to zero. -/
theorem engagement_score_null_iff (f : Frame) (i : ℕ) (hi : i < f.rows.length)
    (hL : rowCell (f.rows.getD i []) "Like Possibility" = Val.null ∨
          ∃ q, rowCell (f.rows.getD i []) "Like Possibility" = Val.num q)
    (hC : rowCell (f.rows.getD i []) "Comment Possibility" = Val.null ∨
          ∃ q, rowCell (f.rows.getD i []) "Comment Possibility" = Val.num q)
    (hS : rowCell (f.rows.getD i []) "Share Possibility" = Val.null ∨
          ∃ q, rowCell (f.rows.getD i []) "Share Possibility" = Val.num q) :
    (rowCell ((addEngagementScore f).rows.getD i []) "Engagement Intention Score"
        = Val.null ↔
      (rowCell (f.rows.getD i []) "Like Possibility" = Val.null ∨
       rowCell (f.rows.getD i []) "Comment Possibility" = Val.null ∨
       rowCell (f.rows.getD i []) "Share Possibility" = Val.null)) ∧
    (¬ (rowCell (f.rows.getD i []) "Like Possibility" = Val.null ∨
        rowCell (f.rows.getD i []) "Comment Possibility" = Val.null ∨
        rowCell (f.rows.getD i []) "Share Possibility" = Val.null) →
      ∃ q, rowCell ((addEngagementScore f).rows.getD i []) "Engagement Intention Score"
        = Val.num q) := by
  have hrow : (addEngagementScore f).rows.getD i []
      = rowSet (f.rows.getD i []) "Engagement Intention Score"
          (scoreVal (f.rows.getD i [])) := by
    rw [addEngagementScore]
    exact getD_map_of_lt _ f.rows i hi [] []
  rw [hrow, rowCell_rowSet_same]
  rcases hL with hL | ⟨ql, hL⟩ <;> rcases hC with hC | ⟨qc, hC⟩ <;>
    rcases hS with hS | ⟨qs, hS⟩ <;> constructor
  all_goals simp only [scoreVal]
  all_goals rw [hL, hC, hS]
  all_goals simp [asNum]

/-- A two-row frame: one row with all three ratings present, one row with
a missing Comment rating. -/
def scoreFrameNull : Frame :=
  { cols := ["Like Possibility", "Comment Possibility", "Share Possibility"],
    rows := [[("Like Possibility", Val.num 2), ("Comment Possibility", Val.num 1),
              ("Share Possibility", Val.num 5)],
             [("Like Possibility", Val.num 2), ("Comment Possibility", Val.null),
              ("Share Possibility", Val.num 5)]] }

/-- C5 (witness): the null-propagation contract instantiated on the
concrete frame, at the all-present row 0 and at the row 1 whose Comment
rating is missing. -/
theorem engagement_score_null_iff_witness :
    ((rowCell ((addEngagementScore scoreFrameNull).rows.getD 0 [])
        "Engagement Intention Score" = Val.null ↔
      (rowCell (scoreFrameNull.rows.getD 0 []) "Like Possibility" = Val.null ∨
       rowCell (scoreFrameNull.rows.getD 0 []) "Comment Possibility" = Val.null ∨
       rowCell (scoreFrameNull.rows.getD 0 []) "Share Possibility" = Val.null)) ∧
     (¬ (rowCell (scoreFrameNull.rows.getD 0 []) "Like Possibility" = Val.null ∨
         rowCell (scoreFrameNull.rows.getD 0 []) "Comment Possibility" = Val.null ∨
         rowCell (scoreFrameNull.rows.getD 0 []) "Share Possibility" = Val.null) →
       ∃ q, rowCell ((addEngagementScore scoreFrameNull).rows.getD 0 [])
         "Engagement Intention Score" = Val.num q)) ∧
    (rowCell ((addEngagementScore scoreFrameNull).rows.getD 1 [])
        "Engagement Intention Score" = Val.null ↔
      (rowCell (scoreFrameNull.rows.getD 1 []) "Like Possibility" = Val.null ∨
       rowCell (scoreFrameNull.rows.getD 1 []) "Comment Possibility" = Val.null ∨
       rowCell (scoreFrameNull.rows.getD 1 []) "Share Possibility" = Val.null)) := by
  refine ⟨engagement_score_null_iff scoreFrameNull 0 (by decide)
      (Or.inr ⟨2, by decide⟩) (Or.inr ⟨1, by decide⟩) (Or.inr ⟨5, by decide⟩), ?_⟩
  exact (engagement_score_null_iff scoreFrameNull 1 (by decide)
      (Or.inr ⟨2, by decide⟩) (Or.inl (by decide)) (Or.inr ⟨5, by decide⟩)).1

/-! ### Claim C9 -/

/-- A raw-statistics frame: two rows with differing or missing parallel
codes but only one finished row. -/
def statFrame : Frame :=
  { cols := ["FINISHED", "P201", "P301"],
    rows := [[("FINISHED", Val.num 1), ("P201", Val.null), ("P301", Val.null)],
             [("FINISHED", Val.num 0), ("P201", Val.num 3), ("P301", Val.num 7)]] }

/-- The pandas `!=` mask is the disjunction: either side missing, or
unequal values. -/
theorem pandasNe_eq (a b : Val) :
    pandasNe a b = ((a == Val.null) || (b == Val.null) || (a != b)) := by
  cases a <;> cases b <;> simp [pandasNe]

/-- C9: the `participants with different codes` count ranges over every
row of the raw table — a row counts whenever `P201` or `P301` is missing
(both-missing included) or the two values differ — and the reported
percentage divides this count by the finished-row count, so on the
concrete frame with 2 such rows and 1 finished row the printed
percentage is 200, exceeding 100. -/
theorem different_codes_contract (f : Frame) :
    different_codes f = f.rows.countP (fun r =>
      (rowCell r "P201" == Val.null) || (rowCell r "P301" == Val.null) ||
      (rowCell r "P201" != rowCell r "P301")) ∧
    different_codes statFrame = 2 ∧
    finished_cases statFrame = 1 ∧
    finished_cases statFrame < different_codes statFrame ∧
    different_codes_pct statFrame = 200 ∧
    (100 : ℚ) < different_codes_pct statFrame := by
  have hpct : different_codes_pct statFrame = 200 := by
    have h1 : different_codes statFrame = 2 := by decide
    have h2 : finished_cases statFrame = 1 := by decide
    rw [different_codes_pct, if_pos (by rw [h2]; norm_num), h1, h2]
    have hq : ((2 : ℕ) : ℚ) / ((1 : ℕ) : ℚ) * 100 * 10 = 2000 := by norm_num
    rw [round1, hq, round_eq_of 2000 2000 (by norm_num) (by norm_num)]
    norm_num
  refine ⟨?_, by decide, by decide, by decide, hpct, by rw [hpct]; norm_num⟩
  rw [different_codes]
  congr 1
  funext r
  rw [pandasNe_eq]

/-! ### Claim C4 -/

/-- The population variance of the two-point column `[1, 3]` is 1. -/
theorem popVar_one_three : popVar [1, 3] = 1 := by
  simp [popVar, mean]
  norm_num

/-- C4 (counterexample): `StandardScaler` does not use the unbiased
(n−1) standard deviation.  On the column `[1, 3]` the population standard
deviation is 1, the scaler outputs `[-1, 1]`, and the sample (n−1)
variance of that output is 2, not 1 — so the standardized output does not
have sample standard deviation ≈ 1, refuting the claimed n−1
convention. -/
theorem standardize_unbiased_false :
    (1 : ℚ) ^ 2 = popVar [1, 3] ∧
    standardizeWith 1 [1, 3] = [-1, 1] ∧
    sampleVar (standardizeWith 1 [1, 3]) = 2 ∧
    sampleVar (standardizeWith 1 [1, 3]) ≠ 1 := by
  have hst : standardizeWith 1 [1, 3] = [-1, 1] := by
    simp [standardizeWith, mean]
    norm_num
  have hs : sampleVar (standardizeWith 1 [1, 3]) = 2 := by
    rw [hst]
    simp [sampleVar, mean]
    norm_num
  exact ⟨by rw [popVar_one_three]; norm_num, hst, hs, by rw [hs]; norm_num⟩

/-- C4 (amended): the standardization stage computes
(value − sample mean) / σ with σ the population (`ddof = 0`) standard
deviation — the convention of `sklearn.preprocessing.StandardScaler` —
so over the non-null values the standardized output has mean exactly 0
and population variance (hence population standard deviation) exactly
1. -/
theorem standardize_pop_mean_var (xs : List ℚ) (σ : ℚ) (hσ : σ ≠ 0)
    (hvar : σ ^ 2 = popVar xs) :
    mean (standardizeWith σ xs) = 0 ∧ popVar (standardizeWith σ xs) = 1 := by
  have hxs : xs ≠ [] := by
    intro he
    rw [he] at hvar
    simp [popVar] at hvar
    exact hσ hvar
  have hn : (xs.length : ℚ) ≠ 0 :=
    Nat.cast_ne_zero.mpr (fun h => hxs (List.length_eq_zero.mp h))
  have hσ2 : σ ^ 2 ≠ 0 := pow_ne_zero 2 hσ
  have hsum : (standardizeWith σ xs).sum = (xs.sum - xs.length * mean xs) / σ := by
    rw [standardizeWith, sum_map_div xs (fun x => x - mean xs) σ, sum_map_sub]
  have hlen : (standardizeWith σ xs).length = xs.length := by
    simp [standardizeWith]
  have hzero : xs.sum - (xs.length : ℚ) * mean xs = 0 := by
    rw [mean]
    field_simp
  have hmean0 : mean (standardizeWith σ xs) = 0 := by
    rw [mean, hsum, hlen, hzero]
    simp
  refine ⟨hmean0, ?_⟩
  rw [popVar]
  simp only [hmean0, sub_zero, hlen]
  have hmm : (standardizeWith σ xs).map (fun x => x ^ 2)
      = xs.map (fun x => ((x - mean xs) / σ) ^ 2) := by
    rw [standardizeWith, List.map_map]
    rfl
  rw [hmm]
  have hdiv : xs.map (fun x => ((x - mean xs) / σ) ^ 2)
      = xs.map (fun x => (x - mean xs) ^ 2 / σ ^ 2) := by
    apply List.map_congr_left
    intro a _
    rw [div_pow]
  rw [hdiv, sum_map_div xs (fun x => (x - mean xs) ^ 2) (σ ^ 2)]
  have hT : (xs.map (fun x => (x - mean xs) ^ 2)).sum = σ ^ 2 * xs.length := by
    rw [popVar] at hvar
    field_simp at hvar
    linarith [hvar]
  rw [hT]
  field_simp

/-- C4 (witness): the amended standardization contract instantiated on
the concrete column `[1, 3]` with σ = 1. -/
theorem standardize_pop_mean_var_witness :
    (1 : ℚ) ≠ 0 ∧ (1 : ℚ) ^ 2 = popVar [1, 3] ∧
    (mean (standardizeWith 1 [1, 3]) = 0 ∧ popVar (standardizeWith 1 [1, 3]) = 1) :=
  ⟨by norm_num, by rw [popVar_one_three]; norm_num,
   standardize_pop_mean_var [1, 3] 1 (by norm_num) (by rw [popVar_one_three]; norm_num)⟩

/-! ### Claim C7 -/

/-- The one-hot column for a missing value: `[some 1, some 2, none]`. -/
def oneHotColNull : List (Option ℚ) := [some 1, some 2, none]

/-- C7 (counterexample): with observed categories {1, 2} (reference 1,
one indicator column for 2), the third row — whose value is missing —
has indicator sum 0 although it does not hold the dropped reference
category, so `sum = 0` does not imply `row holds the reference`. -/
theorem oneHot_reference_iff_false :
    sortedCats oneHotColNull = [1, 2] ∧
    dummyRowSum oneHotColNull 2 = 0 ∧
    oneHotColNull.getD 2 none ≠ some 1 := by
  refine ⟨by decide, ?_, by decide⟩
  decide

/-- C7 (amended): for a column with observed categories `c0 :: rest`
(sorted ascending, reference `c0` dropped), the one-hot stage produces
exactly `k − 1` indicator columns for `k` observed categories, every
indicator entry is 0 or 1, and for every row the indicator sum is at most
1, being 0 exactly when the row holds the dropped reference category or
the row's value is missing. -/
theorem oneHot_contract (col : List (Option ℚ)) (c0 : ℚ) (rest : List ℚ)
    (hcats : sortedCats col = c0 :: rest) :
    (oneHot col).length + 1 = (sortedCats col).length ∧
    (∀ p ∈ oneHot col, ∀ x ∈ p.2, x = 0 ∨ x = 1) ∧
    ∀ i, i < col.length →
      dummyRowSum col i ≤ 1 ∧
      (dummyRowSum col i = 0 ↔
        col.getD i none = none ∨ col.getD i none = some c0) := by
  have hnd : (sortedCats col).Nodup := nodup_sortedCats col
  rw [hcats] at hnd
  obtain ⟨hc0, hrestnd⟩ := List.nodup_cons.mp hnd
  refine ⟨?_, ?_, ?_⟩
  · simp [oneHot, hcats]
  · intro p hp x hx
    rw [oneHot, hcats] at hp
    simp only [List.mem_map] at hp
    obtain ⟨c, -, rfl⟩ := hp
    simp only [List.mem_map] at hx
    obtain ⟨v, -, rfl⟩ := hx
    by_cases hv : v = some c <;> simp [hv]
  · intro i hi
    have hsum : dummyRowSum col i
        = (rest.map (fun c => if col.getD i none = some c then (1 : ℕ) else 0)).sum := by
      rw [dummyRowSum, oneHot, hcats, List.map_map]
      congr 1
      apply List.map_congr_left
      intro c _
      exact getD_map_of_lt _ col i hi none 0
    rw [hsum, sum_indicator _ rest hrestnd]
    cases hv : col.getD i none with
    | none =>
      rw [if_neg (show ¬ ∃ c ∈ rest, (none : Option ℚ) = some c by
        rintro ⟨c, -, hc⟩; exact Option.noConfusion hc)]
      exact ⟨Nat.zero_le 1, by simp⟩
    | some q =>
      have hqmem : q ∈ c0 :: rest := by
        rw [← hcats, mem_sortedCats]
        rw [List.getD_eq_getElem col none hi] at hv
        exact hv ▸ List.getElem_mem hi
      by_cases hq0 : q = c0
      · subst hq0
        have hnot : ¬ ∃ c ∈ rest, (some q : Option ℚ) = some c := by
          rintro ⟨c, hc, hqc⟩
          exact hc0 (((Option.some.injEq q c).mp hqc) ▸ hc)
        rw [if_neg hnot]
        exact ⟨Nat.zero_le 1, by simp⟩
      · have hqrest : q ∈ rest := by
          rcases List.mem_cons.mp hqmem with he | hr
          · exact absurd he hq0
          · exact hr
        rw [if_pos ⟨q, hqrest, rfl⟩]
        refine ⟨le_refl 1, ?_, ?_⟩
        · intro h
          exact absurd h one_ne_zero
        · rintro (h | h)
          · exact Option.noConfusion h
          · exact absurd ((Option.some.injEq q c0).mp h) hq0

/-- The one-hot column of a fully observed categorical: `[1, 2, 1]`. -/
def oneHotColW : List (Option ℚ) := [some 1, some 2, some 1]

/-- C7 (witness): the amended one-hot contract instantiated on the
concrete column `[1, 2, 1]` with categories `1 :: [2]`. -/
theorem oneHot_contract_witness :
    sortedCats oneHotColW = 1 :: [2] ∧
    ((oneHot oneHotColW).length + 1 = (sortedCats oneHotColW).length ∧
     (∀ p ∈ oneHot oneHotColW, ∀ x ∈ p.2, x = 0 ∨ x = 1) ∧
     ∀ i, i < oneHotColW.length →
       dummyRowSum oneHotColW i ≤ 1 ∧
       (dummyRowSum oneHotColW i = 0 ↔
         oneHotColW.getD i none = none ∨ oneHotColW.getD i none = some 1)) :=
  ⟨by decide, oneHot_contract oneHotColW 1 [2] (by decide)⟩

/-! ### Claim C3 -/

theorem projectCols_length (f : Frame) (cs : List String) :
    (projectCols f cs).rows.length = f.rows.length := by
  simp [projectCols]

theorem setRowIDs_length (f : Frame) : (setRowIDs f).rows.length = f.rows.length := by
  simp [setRowIDs]

theorem projectCols_row (f : Frame) (cs : List String) (i : ℕ) (hi : i < f.rows.length) :
    (projectCols f cs).rows.getD i [] = cs.map (fun c => (c, rowCell (f.rows.getD i []) c)) := by
  rw [projectCols]
  exact getD_map_of_lt _ f.rows i hi [] []

theorem setRowIDs_row (f : Frame) (i : ℕ) (hi : i < f.rows.length) :
    (setRowIDs f).rows.getD i []
      = rowSet (f.rows.getD i []) "RowID" (Val.str ("Row_" ++ toString i)) := by
  have h1 : (setRowIDs f).rows.getD i []
      = (fun j => rowSet (f.rows.getD j []) "RowID" (Val.str ("Row_" ++ toString j)))
          ((List.range f.rows.length).getD i 0) := by
    rw [setRowIDs]
    exact getD_map_of_lt _ (List.range f.rows.length) i (by simpa using hi) 0 []
  have h2 : (List.range f.rows.length).getD i 0 = i := by
    rw [List.getD_eq_getElem _ _ (by simpa using hi)]
    simp
  rw [h1, h2]

/-- C3: merging two frames fails (raises, writing nothing) exactly when
the column name lists differ in names or order; a successful merge
concatenates the rows of the first input followed by those of the second,
preserving every non-`RowID` cell per index, and regenerates the
synthetic `RowID` sequentially (`Row_i`) over the whole result. -/
theorem merge_contract (f1 f2 : Frame) :
    (f1.cols ≠ f2.cols → merge f1 f2 = none) ∧
    (∀ g, merge f1 f2 = some g →
      f1.cols = f2.cols ∧
      g.rows.length = f1.rows.length + f2.rows.length ∧
      (∀ c, c ∈ f1.cols → c ≠ "RowID" → ∀ i, i < g.rows.length →
        rowCell (g.rows.getD i []) c = rowCell ((f1.rows ++ f2.rows).getD i []) c) ∧
      (∀ i, i < g.rows.length →
        rowCell (g.rows.getD i []) "RowID" = Val.str ("Row_" ++ toString i))) := by
  by_cases hcols : f1.cols = f2.cols
  · refine ⟨fun hne => absurd hcols hne, fun g hg => ?_⟩
    rw [merge, if_pos hcols] at hg
    obtain rfl := (Option.some.injEq _ _).mp hg
    have hKlen : (setRowIDs { cols := f1.cols, rows := f1.rows ++ f2.rows }).rows.length
        = f1.rows.length + f2.rows.length := by
      rw [setRowIDs_length]
      exact List.length_append _ _
    have hglen : (projectCols (setRowIDs { cols := f1.cols, rows := f1.rows ++ f2.rows })
        (mergeCols (setRowIDs { cols := f1.cols, rows := f1.rows ++ f2.rows }).cols)).rows.length
        = f1.rows.length + f2.rows.length := by
      rw [projectCols_length]
      exact hKlen
    have hbaselen : ({ cols := f1.cols, rows := f1.rows ++ f2.rows } : Frame).rows.length
        = f1.rows.length + f2.rows.length := List.length_append _ _
    refine ⟨hcols, hglen, ?_, ?_⟩
    · intro c hc hcne i hi
      rw [hglen] at hi
      have hmem : c ∈ mergeCols (setRowIDs { cols := f1.cols, rows := f1.rows ++ f2.rows }).cols := by
        rw [mergeCols]
        apply List.mem_cons_of_mem
        apply List.mem_filter.mpr
        refine ⟨?_, by simp [hcne]⟩
        show c ∈ (setRowIDs { cols := f1.cols, rows := f1.rows ++ f2.rows }).cols
        rw [setRowIDs]
        by_cases hR : "RowID" ∈ f1.cols <;> simp [hR, hc]
      rw [projectCols_row _ _ i (by rw [hKlen]; exact hi), rowCell_project _ _ _ hmem,
        setRowIDs_row _ i (by rw [hbaselen]; exact hi)]
      exact rowCell_rowSet_other _ _ _ _ hcne
    · intro i hi
      rw [hglen] at hi
      have hmem : "RowID"
          ∈ mergeCols (setRowIDs { cols := f1.cols, rows := f1.rows ++ f2.rows }).cols := by
        rw [mergeCols]
        exact List.mem_cons_self _ _
      rw [projectCols_row _ _ i (by rw [hKlen]; exact hi), rowCell_project _ _ _ hmem,
        setRowIDs_row _ i (by rw [hbaselen]; exact hi)]
      exact rowCell_rowSet_same _ _ _
  · refine ⟨fun _ => by rw [merge, if_neg hcols], fun g hg => ?_⟩
    rw [merge, if_neg hcols] at hg
    exact Option.noConfusion hg

/-- First merge input: one row tagged `Post1_0`. -/
def mergeF1 : Frame :=
  { cols := ["RowID", "X"], rows := [[("RowID", Val.str "Post1_0"), ("X", Val.num 1)]] }

/-- Second merge input with the same columns: one row tagged `Post2_0`. -/
def mergeF2 : Frame :=
  { cols := ["RowID", "X"], rows := [[("RowID", Val.str "Post2_0"), ("X", Val.num 2)]] }

/-- A frame with the same column names in a different order. -/
def mergeBad : Frame := { cols := ["X", "RowID"], rows := [] }

/-- The merged result of `mergeF1` and `mergeF2`. -/
def mergeOut : Frame :=
  { cols := ["RowID", "X"],
    rows := [[("RowID", Val.str "Row_0"), ("X", Val.num 1)],
             [("RowID", Val.str "Row_1"), ("X", Val.num 2)]] }

/-- C3 (witness): merging with a column-reordered frame fails; merging
two compatible one-row frames yields two rows whose `X` cells are the
input cells in input order and whose `RowID` values are regenerated as
`Row_0`, `Row_1`. -/
theorem merge_contract_witness :
    merge mergeF1 mergeBad = none ∧
    merge mergeF1 mergeF2 = some mergeOut ∧
    mergeOut.rows.length = mergeF1.rows.length + mergeF2.rows.length ∧
    rowCell (mergeOut.rows.getD 1 []) "X"
        = rowCell ((mergeF1.rows ++ mergeF2.rows).getD 1 []) "X" ∧
    rowCell (mergeOut.rows.getD 1 []) "RowID" = Val.str ("Row_" ++ toString 1) := by
  have hbad := (merge_contract mergeF1 mergeBad).1 (by decide)
  have hsome : merge mergeF1 mergeF2 = some mergeOut := by decide
  have h := (merge_contract mergeF1 mergeF2).2 mergeOut hsome
  refine ⟨hbad, hsome, h.2.1, ?_, ?_⟩
  · exact h.2.2.1 "X" (by decide) (by decide) 1 (by decide)
  · exact h.2.2.2 1 (by decide)

end SurveyPipeline
